import Mathlib

/-!
Verification of the student-management-system repository's RecordStore,
auth and attendance logic.

The definitions below are a shallow embedding of the JavaScript source:
`script.js` (StudentManager, FormValidator, the add/edit form submission
pipelines, filterAndSortStudents), `server.js` (the POST /api/students
handler) and `auth.js` (AuthManager.deleteUser, AttendanceManager.
markAttendance).  JavaScript strings are Lean `String`s, `toLowerCase`
is `jsToLower`, `trim` is `jsTrim`, `null` is `Option.none`,
and the `Date` values produced by the date input and `new Date()` are
civil calendar dates converted to day numbers by the standard civil
calendar algorithm (JS `Date` comparison compares epoch timestamps).
Mutation of `this.students` plus `localStorage` persistence is modelled
by explicit state passing over `StoreState`.
-/

namespace SMS

/-! ### JS string helpers -/

/-- Does `hay` start with `needle`?  (helper for substring search). -/
def listStartsWith : List Char → List Char → Bool
  | _, [] => true
  | [], _ :: _ => false
  | c :: cs, d :: ds => c == d && listStartsWith cs ds

/-- Does `hay` contain `needle` as a contiguous run?  Models
JavaScript `String.prototype.includes`. -/
def listContains : List Char → List Char → Bool
  | [], needle => needle.isEmpty
  | c :: cs, needle => listStartsWith (c :: cs) needle || listContains cs needle

/-- JavaScript `a.includes(b)`. -/
def jsIncludes (a b : String) : Bool := listContains a.toList b.toList

/-- JavaScript `s.trim()`: strip leading and trailing whitespace. -/
def jsTrim (s : String) : String :=
  ⟨((s.toList.dropWhile Char.isWhitespace).reverse.dropWhile Char.isWhitespace).reverse⟩

/-- JavaScript `s.toLowerCase()`. -/
def jsToLower (s : String) : String := ⟨s.toList.map Char.toLower⟩

/-- Split a character list into its maximal leading run of decimal
digits and the remainder. -/
def splitDigits : List Char → List Char × List Char
  | [] => ([], [])
  | c :: cs =>
    if c.isDigit then
      let p := splitDigits cs
      (c :: p.1, p.2)
    else ([], c :: cs)

/-- Numeric value of a list of decimal digits. -/
def digitsVal (l : List Char) : Nat :=
  l.foldl (fun n c => 10 * n + (c.toNat - 48)) 0

/-- Numeric-aware string comparison: digit runs compare by numeric
value, other characters by code unit.  Models JavaScript
`a.localeCompare(b, undefined, { numeric: true })`.  The `fuel`
argument only bounds recursion depth; each step consumes at least one
character from each list, so `length + 1` fuel always suffices. -/
def naturalCompareAux : Nat → List Char → List Char → Ordering
  | 0, _, _ => .eq
  | _ + 1, [], [] => .eq
  | _ + 1, [], _ :: _ => .lt
  | _ + 1, _ :: _, [] => .gt
  | fuel + 1, a :: as, b :: bs =>
    if a.isDigit && b.isDigit then
      let pa := splitDigits (a :: as)
      let pb := splitDigits (b :: bs)
      match compare (digitsVal pa.1) (digitsVal pb.1) with
      | .eq => naturalCompareAux fuel pa.2 pb.2
      | .lt => .lt
      | .gt => .gt
    else
      match compare a b with
      | .eq => naturalCompareAux fuel as bs
      | .lt => .lt
      | .gt => .gt

/-- Numeric-aware comparison on strings, as an integer comparator in
the JavaScript style (negative, zero or positive). -/
def jsLocaleCompareNumeric (a b : String) : Int :=
  match naturalCompareAux (a.toList.length + b.toList.length + 1) a.toList b.toList with
  | .lt => -1
  | .eq => 0
  | .gt => 1

/-- Plain string comparison as an integer comparator; models the
default-locale `a.localeCompare(b)` used for the name sorts. -/
def jsLocaleCompare (a b : String) : Int :=
  match compare a b with
  | .lt => -1
  | .eq => 0
  | .gt => 1

/-- Stable insertion of `x` into a sorted list under comparator
`cmp`: `x` goes before the first element it does not compare
after. -/
def insertCmp (cmp : α → α → Int) (x : α) : List α → List α
  | [] => [x]
  | y :: ys => if cmp x y ≤ 0 then x :: y :: ys else y :: insertCmp cmp x ys

/-- Stable sort by a JavaScript-style comparator; models
`Array.prototype.sort(cmp)` (required to be stable by ECMA-262). -/
def sortByCmp (cmp : α → α → Int) : List α → List α
  | [] => []
  | x :: xs => insertCmp cmp x (sortByCmp cmp xs)

/-! ### Calendar dates (JS `Date` model) -/

/-- A civil calendar date, modelling both the string value of the
date input (`"YYYY-MM-DD"`) and the date part of `new Date()`. -/
structure CivilDate where
  year : Int
  month : Int
  day : Int
deriving DecidableEq

/-- Day number of a civil date (days since 1970-01-01), the standard
civil-calendar conversion.  `Int` division is Euclidean, which is
floor division for the positive divisors used here. -/
def daysFromCivil (c : CivilDate) : Int :=
  let y : Int := if c.month ≤ 2 then c.year - 1 else c.year
  let era : Int := y / 400
  let yoe : Int := y - era * 400
  let mp : Int := if c.month ≤ 2 then c.month + 9 else c.month - 3
  let doy : Int := (153 * mp + 2) / 5 + c.day - 1
  let doe : Int := yoe * 365 + yoe / 4 - yoe / 100 + doy
  era * 146097 + doe - 719468

def MS_PER_DAY : Int := 86400000

/-- Epoch timestamp of a civil date at midnight (the value of
`new Date("YYYY-MM-DD")`). -/
def dateInstant (c : CivilDate) : Int := daysFromCivil c * MS_PER_DAY

/-- The date three calendar years before `today`, i.e. the result of
`d.setFullYear(d.getFullYear() - 3)`; day-of-month overflow (Feb 29)
normalises forward exactly as JS `Date` does, because `daysFromCivil`
is linear in the day beyond the end of the month. -/
def minAgeDate (today : CivilDate) : CivilDate :=
  ⟨today.year - 3, today.month, today.day⟩

/-! ### Data model -/

/-- A student record as stored by `StudentManager`.  The JS object
fields `class` and `section` are Lean keywords and are called
`classLevel` and `sectionName` here.  `dob` is the value of the date
input (`none` models the empty string), `picture` an optional data
URL. -/
structure Student where
  id : String
  firstName : String
  lastName : String
  rollNo : String
  admissionNo : String
  classLevel : String
  sectionName : String
  dob : Option CivilDate
  picture : Option String
deriving DecidableEq

/-- The manager's in-memory array together with the `localStorage`
copy written by `saveToLocalStorage`. -/
structure StoreState where
  students : List Student
  persisted : List Student
deriving DecidableEq

def emptyStore : StoreState := ⟨[], []⟩

/-! ### StudentManager queries -/

/-- Models `StudentManager.isRollNoUnique(rollNo, excludeId)`: no record
other than the excluded id has the same lower-cased roll number.
`excludeId = none` models the JS `null` default (a string id is never
`=== null`). -/
def isRollNoUnique (rollNo : String) (excludeId : Option String)
    (students : List Student) : Bool :=
  ! students.any fun s =>
      jsToLower s.rollNo == jsToLower rollNo &&
      (match excludeId with
       | none => true
       | some e => s.id != e)

/-- Models `StudentManager.isAdmissionNoUnique(admissionNo, excludeId)`. -/
def isAdmissionNoUnique (admissionNo : String) (excludeId : Option String)
    (students : List Student) : Bool :=
  ! students.any fun s =>
      jsToLower s.admissionNo == jsToLower admissionNo &&
      (match excludeId with
       | none => true
       | some e => s.id != e)

/-- Models `StudentManager.getStudent(id)`: `this.students.find(s => s.id === id)`. -/
def getStudent (students : List Student) (id : String) : Option Student :=
  students.find? fun s => s.id == id

/-! ### Form validation (`FormValidator`) -/

/-- One `FormValidator.setError` entry, identified by the failing
field and the kind of message set. -/
inductive FieldError where
  | required (field : String)
  | selectRequired (field : String)
  | duplicate (field : String)
  | dobRequired
  | dobPast
  | dobMinAge
deriving DecidableEq

/-- Models `FormValidator.validateDate` (error variant): the field is
required, `new Date(value) >= new Date()` fails with "must be in the
past", and a date after `now` minus three calendar years fails with
"at least 3 years old".  `today` is the current civil date and `tod`
the elapsed milliseconds of the current day, so the current instant
is `dateInstant today + tod`. -/
def validateDateErr (dob : Option CivilDate) (today : CivilDate) (tod : Int) :
    Option FieldError :=
  match dob with
  | none => some .dobRequired
  | some d =>
    if dateInstant d ≥ dateInstant today + tod then some .dobPast
    else if dateInstant d > dateInstant (minAgeDate today) + tod then some .dobMinAge
    else none

/-- Boolean result of `FormValidator.validateDate`. -/
def validateDateB (dob : Option CivilDate) (today : CivilDate) (tod : Int) : Bool :=
  (validateDateErr dob today tod).isNone

/-- Raw values of the add/edit student form (the two forms have the
same fields).  Text inputs are untrimmed; `validateRequired` and the
assembled `formData` trim them. -/
structure AddForm where
  firstName : String
  lastName : String
  rollNo : String
  admissionNo : String
  classLevel : String
  sectionName : String
  dob : Option CivilDate
  picture : Option String
deriving DecidableEq

/-- The validation pass of the add/edit form submission handlers, as
the list of `setError` calls made, in source order.  The two
`validateUnique` calls are guarded by `if (isValid && value)` where
`isValid` accumulates the results of the checks run so far, exactly
as in the source; `excludeId` is `null` for the add form and
`currentEditingStudentId` for the edit form. -/
def formErrors (students : List Student) (excludeId : Option String)
    (f : AddForm) (today : CivilDate) (tod : Int) : List FieldError :=
  let rollNo := jsTrim f.rollNo
  let admissionNo := jsTrim f.admissionNo
  let v1 := jsTrim f.firstName ≠ ""
  let v2 := jsTrim f.lastName ≠ ""
  let v3 := rollNo ≠ ""
  let u1 := isRollNoUnique rollNo excludeId students = true
  let v5 := admissionNo ≠ ""
  let u2 := isAdmissionNoUnique admissionNo excludeId students = true
  let e1 := if v1 then [] else [FieldError.required "firstName"]
  let e2 := if v2 then [] else [FieldError.required "lastName"]
  let e3 := if v3 then [] else [FieldError.required "rollNo"]
  let e4 := if v1 ∧ v2 ∧ v3 then
              (if u1 then [] else [FieldError.duplicate "rollNo"]) else []
  let e5 := if v5 then [] else [FieldError.required "admissionNo"]
  let e6 := if v1 ∧ v2 ∧ v3 ∧ u1 ∧ v5 then
              (if u2 then [] else [FieldError.duplicate "admissionNo"]) else []
  let e7 := if f.classLevel ≠ "" then [] else [FieldError.selectRequired "class"]
  let e8 := if f.sectionName ≠ "" then [] else [FieldError.selectRequired "section"]
  let e9 := (validateDateErr f.dob today tod).toList
  e1 ++ e2 ++ e3 ++ e4 ++ e5 ++ e6 ++ e7 ++ e8 ++ e9

/-! ### Store mutations -/

/-- The record assembled from the form (`formData`) with the id the
store assigns (`addStudentLocal`) or preserves (`updateStudent`). -/
def formStudent (f : AddForm) (id : String) : Student :=
  { id := id
    firstName := jsTrim f.firstName
    lastName := jsTrim f.lastName
    rollNo := jsTrim f.rollNo
    admissionNo := jsTrim f.admissionNo
    classLevel := f.classLevel
    sectionName := f.sectionName
    dob := f.dob
    picture := f.picture }

/-- The add-form submission pipeline: validate, and on success run
`addStudentLocal` (assign `newId`, push, `saveToLocalStorage`).
`newId` models `Date.now().toString()`. -/
def submitAddStudent (s : StoreState) (f : AddForm) (today : CivilDate)
    (tod : Int) (newId : String) : Except (List FieldError) Student × StoreState :=
  let errs := formErrors s.students none f today tod
  if errs.isEmpty then
    let st := formStudent f newId
    let students := s.students ++ [st]
    (.ok st, ⟨students, students⟩)
  else
    (.error errs, s)

/-- Result of the edit pipeline. -/
inductive EditResult where
  | validationFailed (errs : List FieldError)
  | notFound
  | updated (st : Student)
deriving DecidableEq

/-- Models `StudentManager.updateStudent(id, updatedData)`: find the
first record with the id (throwing "Student not found" otherwise) and
replace it by the spread of the old record, the supplied data and the
preserved id; since `updatedData`
supplies every field but `id`, the merge is `formStudent f id`.  A
`none` id models `currentEditingStudentId === null`, which matches no
record. -/
def updateStudentOp (s : StoreState) (editingId : Option String) (f : AddForm) :
    EditResult × StoreState :=
  match editingId with
  | none => (.notFound, s)
  | some id =>
    match s.students.findIdx? (fun r => r.id == id) with
    | none => (.notFound, s)
    | some i =>
      let merged := formStudent f id
      let students := s.students.set i merged
      (.updated merged, ⟨students, students⟩)

/-- The edit-form submission pipeline: validate with self-exclusion
by `currentEditingStudentId`, then `updateStudent`. -/
def submitEditStudent (s : StoreState) (editingId : Option String) (f : AddForm)
    (today : CivilDate) (tod : Int) : EditResult × StoreState :=
  let errs := formErrors s.students editingId f today tod
  if errs.isEmpty then updateStudentOp s editingId f
  else (.validationFailed errs, s)

/-- Models `StudentManager.deleteStudent(id)`: find the first index with the
id, throw "Student not found" if absent, else splice it out and
persist. -/
def deleteStudentOp (s : StoreState) (id : String) :
    Except String Bool × StoreState :=
  match s.students.findIdx? (fun r => r.id == id) with
  | none => (.error "Student not found", s)
  | some i =>
    let students := s.students.eraseIdx i
    (.ok true, ⟨students, students⟩)

/-! ### Import -/

/-- The `students` property of an import payload: present and an
array, or present but not an array (including JS-falsy values, which
the truthiness guard also rejects). -/
inductive StudentsField where
  | sequence (l : List Student)
  | nonSequence
deriving DecidableEq

/-- An import payload; `students = none` models a missing key. -/
structure ImportPayload where
  students : Option StudentsField
deriving DecidableEq

/-- Models `StudentManager.importData(jsonData)`: accept exactly when
`jsonData.students` is present and `Array.isArray` holds, replacing
the whole collection (and the persisted copy) without validating any
record; otherwise return `false` and change nothing. -/
def importData (s : StoreState) (p : ImportPayload) : Bool × StoreState :=
  match p.students with
  | some (.sequence l) => (true, ⟨l, l⟩)
  | _ => (false, s)

/-! ### Server: POST /api/students (`server.js`) -/

/-- The JSON body of `POST /api/students` (no id; the server assigns
one).  `dob = none` models a missing or empty (falsy) field. -/
structure NewStudentBody where
  firstName : String
  lastName : String
  rollNo : String
  admissionNo : String
  classLevel : String
  sectionName : String
  dob : Option CivilDate
  picture : Option String
deriving DecidableEq

/-- The server-side create handler: reject when any required field is
falsy, then when the roll number or the admission number collides
case-insensitively, else append the record with a fresh id and write
the file.  The returned list is the stored collection after the
request. -/
def postStudent (students : List Student) (b : NewStudentBody) (newId : String) :
    Except String Student × List Student :=
  if b.firstName = "" ∨ b.lastName = "" ∨ b.rollNo = "" ∨ b.admissionNo = "" ∨
     b.classLevel = "" ∨ b.sectionName = "" ∨ b.dob = none then
    (.error "Missing required fields", students)
  else if students.any (fun s => jsToLower s.rollNo == jsToLower b.rollNo) then
    (.error "Roll Number already exists", students)
  else if students.any (fun s => jsToLower s.admissionNo == jsToLower b.admissionNo) then
    (.error "Admission Number already exists", students)
  else
    let st : Student :=
      { id := newId, firstName := b.firstName, lastName := b.lastName
        rollNo := b.rollNo, admissionNo := b.admissionNo
        classLevel := b.classLevel, sectionName := b.sectionName
        dob := b.dob, picture := b.picture }
    (.ok st, students ++ [st])

/-! ### Filtering and sorting (`filterAndSortStudents`) -/

/-- The `currentFilters` module global. -/
structure Filters where
  classFilter : String
  sectionFilter : String
  sortBy : String
  searchTerm : String
deriving DecidableEq

/-- The module-level mutable globals of `script.js` that are in scope
inside `filterAndSortStudents`. -/
structure GlobalState where
  currentFilters : Filters
  students : List Student
  currentImageData : Option String
  editImageData : Option String
  currentEditingStudentId : Option String
  currentProfileStudentId : Option String
deriving DecidableEq

/-- Does a student match the search term (already lower-cased)?  The
term is matched as a substring of the lower-cased "first last" name,
roll number or admission number. -/
def matchesSearch (term : String) (st : Student) : Bool :=
  jsIncludes (jsToLower (st.firstName ++ " " ++ st.lastName)) term ||
  jsIncludes (jsToLower st.rollNo) term ||
  jsIncludes (jsToLower st.admissionNo) term

/-- Models `parseInt` on the numeric id strings produced by
`Date.now().toString()`: value of the leading digit run. -/
def jsParseIntId (s : String) : Int :=
  (digitsVal (splitDigits s.toList).1 : Int)

/-- Models `filterAndSortStudents(students)`: copy the array, apply the
search, class and section filters (each skipped when its criterion is
the empty string, which is falsy), then the sort selected by
`currentFilters.sortBy` (an unrecognised or empty key sorts
nothing).  The function reads only `currentFilters` from the global
state and writes nothing, which the explicit state passing makes
visible: the state component of the result is the input state. -/
def filterAndSortStudents (g : GlobalState) (students : List Student) :
    List Student × GlobalState :=
  let f := g.currentFilters
  let filtered := students
  let filtered :=
    if f.searchTerm ≠ "" then
      let term := jsToLower f.searchTerm
      filtered.filter (matchesSearch term)
    else filtered
  let filtered :=
    if f.classFilter ≠ "" then filtered.filter (fun st => st.classLevel == f.classFilter)
    else filtered
  let filtered :=
    if f.sectionFilter ≠ "" then filtered.filter (fun st => st.sectionName == f.sectionFilter)
    else filtered
  let sorted :=
    if f.sortBy ≠ "" then
      if f.sortBy = "name-asc" then
        sortByCmp (fun a b =>
          jsLocaleCompare (jsToLower (a.firstName ++ " " ++ a.lastName))
            (jsToLower (b.firstName ++ " " ++ b.lastName))) filtered
      else if f.sortBy = "name-desc" then
        sortByCmp (fun a b =>
          jsLocaleCompare (jsToLower (b.firstName ++ " " ++ b.lastName))
            (jsToLower (a.firstName ++ " " ++ a.lastName))) filtered
      else if f.sortBy = "roll-asc" then
        sortByCmp (fun a b => jsLocaleCompareNumeric a.rollNo b.rollNo) filtered
      else if f.sortBy = "roll-desc" then
        sortByCmp (fun a b => jsLocaleCompareNumeric b.rollNo a.rollNo) filtered
      else if f.sortBy = "date-newest" then
        sortByCmp (fun a b => jsParseIntId b.id - jsParseIntId a.id) filtered
      else if f.sortBy = "date-oldest" then
        sortByCmp (fun a b => jsParseIntId a.id - jsParseIntId b.id) filtered
      else filtered
    else filtered
  (sorted, g)

/-! ### Store operations and reachability -/

/-- One store operation, with the environment each needs (`today`,
time of day and the id `Date.now()` produces). -/
inductive Op where
  | add (f : AddForm) (today : CivilDate) (tod : Int) (newId : String)
  | update (editingId : Option String) (f : AddForm) (today : CivilDate) (tod : Int)
  | del (id : String)
  | imp (p : ImportPayload)

def applyOp (s : StoreState) : Op → StoreState
  | .add f today tod newId => (submitAddStudent s f today tod newId).2
  | .update editingId f today tod => (submitEditStudent s editingId f today tod).2
  | .del id => (deleteStudentOp s id).2
  | .imp p => (importData s p).2

def runOps (s : StoreState) (ops : List Op) : StoreState := ops.foldl applyOp s

/-- At most one record per lower-cased roll number and per
lower-cased admission number. -/
def StudentsUnique (l : List Student) : Prop :=
  l.Pairwise fun a b =>
    jsToLower a.rollNo ≠ jsToLower b.rollNo ∧
    jsToLower a.admissionNo ≠ jsToLower b.admissionNo

instance : DecidablePred StudentsUnique := fun l => by
  unfold StudentsUnique; infer_instance

/-- All record ids are distinct. -/
def IdsNodup (l : List Student) : Prop := (l.map fun r => r.id).Nodup

instance : DecidablePred IdsNodup := fun l => by
  unfold IdsNodup; infer_instance

/-- States reachable from the empty store by the add, update and
delete pipelines, where each add is given a fresh id (ids come from
`Date.now()`). -/
inductive ReachableCrud : StoreState → Prop
  | empty : ReachableCrud emptyStore
  | add {s f today tod newId} : ReachableCrud s →
      (∀ r ∈ s.students, r.id ≠ newId) →
      ReachableCrud (submitAddStudent s f today tod newId).2
  | update {s editingId f today tod} : ReachableCrud s →
      ReachableCrud (submitEditStudent s editingId f today tod).2
  | del {s id} : ReachableCrud s →
      ReachableCrud (deleteStudentOp s id).2

/-! ### Auth (`auth.js`) -/

/-- A user account. -/
structure User where
  id : String
  username : String
  password : String
  role : String
  name : String
  email : String
deriving DecidableEq

/-- State of `AuthManager`: the users array, the session user
(`currentUser`, `none` when logged out) and the persisted copy. -/
structure AuthState where
  users : List User
  currentUser : Option User
  persisted : List User
deriving DecidableEq

/-- Models `AuthManager.deleteUser(userId)`: refuse id `'1'` (the default
admin), refuse the current user's own id, report "User not found" for
an unknown id, otherwise splice the user out and persist. -/
def deleteUser (s : AuthState) (userId : String) : Except String Unit × AuthState :=
  if userId = "1" then
    (.error "Cannot delete default admin account", s)
  else if (match s.currentUser with
           | some u => userId == u.id
           | none => false) then
    (.error "Cannot delete your own account", s)
  else
    match s.users.findIdx? (fun u => u.id == userId) with
    | none => (.error "User not found", s)
    | some i =>
      let users := s.users.eraseIdx i
      (.ok (), { s with users := users, persisted := users })

/-- Run a sequence of `deleteUser` calls, keeping only the state. -/
def runDeleteUsers (s : AuthState) (ids : List String) : AuthState :=
  ids.foldl (fun st uid => (deleteUser st uid).2) s

/-! ### Attendance (`auth.js`, `AttendanceManager`) -/

/-- One attendance record. -/
structure AttendanceRecord where
  id : String
  studentId : String
  date : String
  status : String
  markedBy : String
  markedAt : String
deriving DecidableEq

/-- State of `AttendanceManager` (array plus persisted copy). -/
structure AttState where
  attendance : List AttendanceRecord
  persisted : List AttendanceRecord
deriving DecidableEq

def emptyAtt : AttState := ⟨[], []⟩

/-- Arguments of one `markAttendance` call, including the id and
timestamp the call generates. -/
structure MarkCall where
  studentId : String
  date : String
  status : String
  markedBy : String
  newId : String
  markedAt : String

/-- Models `AttendanceManager.markAttendance`: build the record, drop every
existing record for the same student and date, push the new record
and persist. -/
def markAttendance (s : AttState) (c : MarkCall) : AttendanceRecord × AttState :=
  let record : AttendanceRecord :=
    ⟨c.newId, c.studentId, c.date, c.status, c.markedBy, c.markedAt⟩
  let att := (s.attendance.filter fun a =>
      !(a.studentId == c.studentId && a.date == c.date)) ++ [record]
  (record, ⟨att, att⟩)

def runMarks (s : AttState) (calls : List MarkCall) : AttState :=
  calls.foldl (fun st c => (markAttendance st c).2) s

/-- At most one attendance record per (studentId, date) pair. -/
def AttUnique (l : List AttendanceRecord) : Prop :=
  l.Pairwise fun a b => ¬(a.studentId = b.studentId ∧ a.date = b.date)

/-! ### Concrete sample data, used by the closed theorems below -/

def sampleDob : CivilDate := ⟨2015, 4, 20⟩

def alice : Student := ⟨"1001", "Alice", "Lee", "2", "A100", "5", "A", some sampleDob, none⟩

def bob : Student := ⟨"1002", "Bob", "Ann", "10", "A200", "5", "B", some sampleDob, none⟩

def cara : Student := ⟨"1003", "Cara", "Zed", "1", "A300", "6", "A", some sampleDob, none⟩

/-- Two distinct records whose roll numbers collide case-insensitively. -/
def dupRoll1 : Student := ⟨"2001", "Dup", "Licate", "A7", "B100", "7", "C", some sampleDob, none⟩

def dupRoll2 : Student := ⟨"2002", "Other", "Person", "a7", "B200", "7", "D", some sampleDob, none⟩

def rollAscFilters : Filters := ⟨"", "", "roll-asc", ""⟩

def stateA : GlobalState := ⟨rollAscFilters, [], none, none, none, none⟩

/-- Same filters as `stateA` but every other global differs. -/
def stateB : GlobalState :=
  ⟨rollAscFilters, [alice], some "img", some "img2", some "1001", some "1002"⟩

def wToday : CivilDate := ⟨2026, 10, 12⟩

/-- An add form whose trimmed roll number collides with `dupRoll1`. -/
def formDupRoll : AddForm :=
  ⟨" Dana ", "Smith", " a7 ", "C900", "8", "A", some ⟨2014, 1, 15⟩, none⟩

/-- A POST body whose roll number collides with `dupRoll1`. -/
def bodyDupRoll : NewStudentBody :=
  ⟨"Dana", "Smith", "a7", "C900", "8", "A", some ⟨2014, 1, 15⟩, none⟩

/-- A form that passes every validation against an empty store. -/
def validForm : AddForm :=
  ⟨"Eve", "Stone", "R1", "AD1", "3", "B", some ⟨2015, 4, 20⟩, none⟩

def adminU : User := ⟨"1", "admin", "admin123", "admin", "Administrator", "admin@school.com"⟩

def teacherU : User := ⟨"2", "teacher", "teacher123", "teacher", "John Teacher", "teacher@school.com"⟩

def defaultAuth : AuthState := ⟨[adminU, teacherU], some teacherU, [adminU, teacherU]⟩

def markCall1 : MarkCall := ⟨"1001", "2026-10-12", "present", "Administrator", "9001", "t1"⟩

def markCall2 : MarkCall := ⟨"1001", "2026-10-12", "late", "Administrator", "9002", "t2"⟩

/-! ### Helper lemmas -/

/-- Moving a civil date three years back never moves its day number
forward (three years always span at least 1095 days). -/
theorem daysFromCivil_minAge_le (today : CivilDate) :
    daysFromCivil (minAgeDate today) ≤ daysFromCivil today := by
  rcases today with ⟨y, m, d⟩
  unfold daysFromCivil minAgeDate
  by_cases hm : m ≤ 2 <;> simp only [hm, if_true, if_false] <;> omega

/-- Unpacking of `isRollNoUnique` with no excluded id. -/
theorem isRollNoUnique_none_iff (rollNo : String) (students : List Student) :
    isRollNoUnique rollNo none students = true ↔
      ∀ r ∈ students, jsToLower r.rollNo ≠ jsToLower rollNo := by
  simp [isRollNoUnique]

/-- Unpacking of `isAdmissionNoUnique` with no excluded id. -/
theorem isAdmissionNoUnique_none_iff (admissionNo : String) (students : List Student) :
    isAdmissionNoUnique admissionNo none students = true ↔
      ∀ r ∈ students, jsToLower r.admissionNo ≠ jsToLower admissionNo := by
  simp [isAdmissionNoUnique]

/-- Unpacking of `isRollNoUnique` with an excluded id. -/
theorem isRollNoUnique_some_iff (rollNo id : String) (students : List Student) :
    isRollNoUnique rollNo (some id) students = true ↔
      ∀ r ∈ students, jsToLower r.rollNo = jsToLower rollNo → r.id = id := by
  simp [isRollNoUnique]

/-- Unpacking of `isAdmissionNoUnique` with an excluded id. -/
theorem isAdmissionNoUnique_some_iff (admissionNo id : String) (students : List Student) :
    isAdmissionNoUnique admissionNo (some id) students = true ↔
      ∀ r ∈ students, jsToLower r.admissionNo = jsToLower admissionNo → r.id = id := by
  simp [isAdmissionNoUnique]

/-- A form submission that produced no validation error passed both
uniqueness checks. -/
theorem formErrors_nil_unique (students : List Student) (excludeId : Option String)
    (f : AddForm) (today : CivilDate) (tod : Int)
    (h : formErrors students excludeId f today tod = []) :
    isRollNoUnique (jsTrim f.rollNo) excludeId students = true ∧
    isAdmissionNoUnique (jsTrim f.admissionNo) excludeId students = true := by
  unfold formErrors at h
  simp only [List.append_eq_nil] at h
  obtain ⟨⟨⟨⟨⟨⟨⟨⟨h1, h2⟩, h3⟩, h4⟩, h5⟩, h6⟩, -⟩, -⟩, -⟩ := h
  by_cases hv1 : jsTrim f.firstName = ""
  · simp [hv1] at h1
  by_cases hv2 : jsTrim f.lastName = ""
  · simp [hv2] at h2
  by_cases hv3 : jsTrim f.rollNo = ""
  · simp [hv3] at h3
  by_cases hu1 : isRollNoUnique (jsTrim f.rollNo) excludeId students = true
  · by_cases hv5 : jsTrim f.admissionNo = ""
    · simp [hv5] at h5
    by_cases hu2 : isAdmissionNoUnique (jsTrim f.admissionNo) excludeId students = true
    · exact ⟨hu1, hu2⟩
    · simp [hv1, hv2, hv3, hu1, hv5, hu2] at h6
  · simp [hv1, hv2, hv3, hu1] at h4

/-- With the three leading required checks passing and the roll
number colliding, the validator records a duplicate roll-number
error. -/
theorem formErrors_dup_roll_mem (students : List Student) (excludeId : Option String)
    (f : AddForm) (today : CivilDate) (tod : Int)
    (h1 : jsTrim f.firstName ≠ "") (h2 : jsTrim f.lastName ≠ "") (h3 : jsTrim f.rollNo ≠ "")
    (hu : isRollNoUnique (jsTrim f.rollNo) excludeId students = false) :
    FieldError.duplicate "rollNo" ∈ formErrors students excludeId f today tod := by
  unfold formErrors
  simp [h1, h2, h3, hu]

/-! ### Claim theorems -/

/-- C4.  `filterAndSortStudents` is a pure function of the collection
and the filter/sort criteria: its output is the same for any two
global states agreeing on `currentFilters`, and it leaves the entire
global state (including the stored student collection) unchanged. -/
theorem filterAndSort_pure (g1 g2 : GlobalState) (students : List Student)
    (h : g1.currentFilters = g2.currentFilters) :
    (filterAndSortStudents g1 students).1 = (filterAndSortStudents g2 students).1 ∧
    (filterAndSortStudents g1 students).2 = g1 := by
  refine ⟨?_, rfl⟩
  unfold filterAndSortStudents
  rw [h]

/-- Witness for C4 at concrete states differing in every global but
the filters. -/
theorem filterAndSort_pure_witness :
    (filterAndSortStudents stateA [alice, bob, cara]).1 =
      (filterAndSortStudents stateB [alice, bob, cara]).1 ∧
    (filterAndSortStudents stateA [alice, bob, cara]).2 = stateA :=
  filterAndSort_pure stateA stateB [alice, bob, cara] rfl

/-- C5.  On records with roll numbers "2", "10", "1" the `roll-asc`
sort returns them in numeric-aware order "1", "2", "10", not in the
lexicographic order "1", "10", "2". -/
theorem rollSort_numericAware :
    ((filterAndSortStudents stateA [alice, bob, cara]).1.map fun r => r.rollNo) =
      ["1", "2", "10"] := by
  decide

/-- C7.  A date of birth whose day number is one day after `today`
minus three calendar years is rejected, and one day before it is
accepted, for every current date and time of day. -/
theorem validateDate_age_boundary (today dob : CivilDate) (tod : Int)
    (h0 : 0 ≤ tod) (h1 : tod < MS_PER_DAY) :
    (daysFromCivil dob = daysFromCivil (minAgeDate today) + 1 →
      validateDateB (some dob) today tod = false) ∧
    (daysFromCivil dob = daysFromCivil (minAgeDate today) - 1 →
      validateDateB (some dob) today tod = true) := by
  have hle := daysFromCivil_minAge_le today
  unfold MS_PER_DAY at h1
  simp only [validateDateB, validateDateErr, dateInstant, MS_PER_DAY]
  constructor
  · intro h
    split_ifs with c1 c2
    · rfl
    · rfl
    · exfalso; omega
  · intro h
    split_ifs with c1 c2
    · exfalso; omega
    · exfalso; omega
    · rfl

/-- Witness for C7: on 2026-10-12 a birth date of 2023-10-13 (three
years minus one day old) is rejected and 2023-10-11 (three years and
one day old) is accepted. -/
theorem validateDate_age_boundary_witness :
    validateDateB (some ⟨2023, 10, 13⟩) ⟨2026, 10, 12⟩ 1 = false ∧
    validateDateB (some ⟨2023, 10, 11⟩) ⟨2026, 10, 12⟩ 1 = true :=
  ⟨(validateDate_age_boundary ⟨2026, 10, 12⟩ ⟨2023, 10, 13⟩ 1 (by decide) (by decide)).1
      (by decide),
   (validateDate_age_boundary ⟨2026, 10, 12⟩ ⟨2023, 10, 11⟩ 1 (by decide) (by decide)).2
      (by decide)⟩

/-- C8.  Import accepts exactly the payloads whose `students` key is
present and is an array, replacing the in-memory and persisted
collection with the payload's records with no per-record validation
(the replacing list is arbitrary); a missing or non-array `students`
key is rejected with `false` and both collections are unchanged. -/
theorem importData_spec (s : StoreState) (p : ImportPayload) :
    (∀ l, p.students = some (.sequence l) → importData s p = (true, ⟨l, l⟩)) ∧
    ((p.students = none ∨ p.students = some .nonSequence) →
      importData s p = (false, s)) := by
  constructor
  · intro l h
    simp [importData, h]
  · rintro (h | h) <;> simp [importData, h]

/-- Witness for C8: a payload with records (even invalid duplicates)
replaces the collection; a payload without `students` changes
nothing. -/
theorem importData_spec_witness :
    importData ⟨[alice], [alice]⟩ ⟨some (.sequence [dupRoll1, dupRoll2])⟩ =
      (true, ⟨[dupRoll1, dupRoll2], [dupRoll1, dupRoll2]⟩) ∧
    importData ⟨[alice], [alice]⟩ ⟨none⟩ = (false, ⟨[alice], [alice]⟩) :=
  ⟨(importData_spec ⟨[alice], [alice]⟩ ⟨some (.sequence [dupRoll1, dupRoll2])⟩).1 _ rfl,
   (importData_spec ⟨[alice], [alice]⟩ ⟨none⟩).2 (Or.inl rfl)⟩

/-- C1.  Creating a student whose roll number matches an existing
record case-insensitively fails and leaves the collection unchanged:
the client add pipeline (once the three preceding required-field
checks pass, so the duplicate check runs) records a duplicate
roll-number error and does not touch the store, and the server POST
handler (once all required fields are present) answers "Roll Number
already exists" and leaves the stored list as it was. -/
theorem create_duplicate_roll_rejected
    (s : StoreState) (f : AddForm) (today : CivilDate) (tod : Int) (newId : String)
    (l : List Student) (b : NewStudentBody) (serverId : String)
    (hf1 : jsTrim f.firstName ≠ "") (hf2 : jsTrim f.lastName ≠ "") (hf3 : jsTrim f.rollNo ≠ "")
    (hdupF : ∃ r ∈ s.students, jsToLower r.rollNo = jsToLower (jsTrim f.rollNo))
    (hb1 : b.firstName ≠ "") (hb2 : b.lastName ≠ "") (hb3 : b.rollNo ≠ "")
    (hb4 : b.admissionNo ≠ "") (hb5 : b.classLevel ≠ "") (hb6 : b.sectionName ≠ "")
    (hb7 : b.dob ≠ none)
    (hdupB : ∃ r ∈ l, jsToLower r.rollNo = jsToLower b.rollNo) :
    (∃ errs, (submitAddStudent s f today tod newId).1 = .error errs ∧
        FieldError.duplicate "rollNo" ∈ errs) ∧
    (submitAddStudent s f today tod newId).2 = s ∧
    postStudent l b serverId = (.error "Roll Number already exists", l) := by
  have hu : isRollNoUnique (jsTrim f.rollNo) none s.students = false := by
    obtain ⟨r, hr, hrr⟩ := hdupF
    rcases hval : isRollNoUnique (jsTrim f.rollNo) none s.students with _ | _
    · rfl
    · exact absurd hrr ((isRollNoUnique_none_iff _ _).mp hval r hr)
  have hmem := formErrors_dup_roll_mem s.students none f today tod hf1 hf2 hf3 hu
  have hne : formErrors s.students none f today tod ≠ [] := List.ne_nil_of_mem hmem
  have hcond : ¬((formErrors s.students none f today tod).isEmpty = true) := by
    simp only [List.isEmpty_iff]
    exact hne
  have hmiss : ¬(b.firstName = "" ∨ b.lastName = "" ∨ b.rollNo = "" ∨
      b.admissionNo = "" ∨ b.classLevel = "" ∨ b.sectionName = "" ∨ b.dob = none) := by
    simp [hb1, hb2, hb3, hb4, hb5, hb6, hb7]
  have hany : (l.any fun s0 => jsToLower s0.rollNo == jsToLower b.rollNo) = true := by
    obtain ⟨r, hr, hrr⟩ := hdupB
    exact List.any_eq_true.mpr ⟨r, hr, by simp [hrr]⟩
  refine ⟨⟨formErrors s.students none f today tod, ?_, hmem⟩, ?_, ?_⟩
  · simp only [submitAddStudent]
    rw [if_neg hcond]
  · simp only [submitAddStudent]
    rw [if_neg hcond]
  · simp only [postStudent]
    rw [if_neg hmiss, if_pos hany]

/-- Witness for C1 at a store holding a record with roll number "A7"
and a form (and a POST body) carrying roll number "a7". -/
theorem create_duplicate_roll_rejected_witness :
    (∃ errs, (submitAddStudent ⟨[dupRoll1], [dupRoll1]⟩ formDupRoll wToday 0 "3001").1 =
        .error errs ∧ FieldError.duplicate "rollNo" ∈ errs) ∧
    (submitAddStudent ⟨[dupRoll1], [dupRoll1]⟩ formDupRoll wToday 0 "3001").2 =
      ⟨[dupRoll1], [dupRoll1]⟩ ∧
    postStudent [dupRoll1] bodyDupRoll "3001" =
      (.error "Roll Number already exists", [dupRoll1]) :=
  create_duplicate_roll_rejected ⟨[dupRoll1], [dupRoll1]⟩ formDupRoll wToday 0 "3001"
    [dupRoll1] bodyDupRoll "3001"
    (by decide) (by decide) (by decide) ⟨dupRoll1, by decide, by decide⟩
    (by decide) (by decide) (by decide) (by decide) (by decide) (by decide) (by decide)
    ⟨dupRoll1, by decide, by decide⟩

/-- C3.  Under the store's uniqueness invariant, each uniqueness
helper returns `true` for a record's own key value when that record's
id is excluded, so an edit that keeps a record's own roll number (or
admission number) never reports a false duplicate. -/
theorem keyUnique_self_exclusion (l : List Student) (r : Student) (hr : r ∈ l)
    (hroll : l.Pairwise fun a b => jsToLower a.rollNo ≠ jsToLower b.rollNo)
    (hadm : l.Pairwise fun a b => jsToLower a.admissionNo ≠ jsToLower b.admissionNo) :
    isRollNoUnique r.rollNo (some r.id) l = true ∧
    isAdmissionNoUnique r.admissionNo (some r.id) l = true := by
  constructor
  · rw [isRollNoUnique_some_iff]
    intro x hx hxr
    by_cases hxe : x = r
    · rw [hxe]
    · exact absurd hxr (List.Pairwise.forall (fun _ _ h => h.symm) hroll hx hr hxe)
  · rw [isAdmissionNoUnique_some_iff]
    intro x hx hxr
    by_cases hxe : x = r
    · rw [hxe]
    · exact absurd hxr (List.Pairwise.forall (fun _ _ h => h.symm) hadm hx hr hxe)

/-- Witness for C3 on a two-record collection. -/
theorem keyUnique_self_exclusion_witness :
    isRollNoUnique alice.rollNo (some alice.id) [alice, bob] = true ∧
    isAdmissionNoUnique alice.admissionNo (some alice.id) [alice, bob] = true :=
  keyUnique_self_exclusion [alice, bob] alice (by decide) (by decide) (by decide)

/-- C6.  Delete removes exactly the record carrying the requested id:
when such a record exists (and ids are distinct) the result is `ok`,
the collection is one record shorter, every record with a different
id is kept, the persisted copy matches, and a subsequent `getStudent`
on the id returns `none`; deleting an unknown id throws "Student not
found" and leaves the state unchanged. -/
theorem deleteStudent_spec (s : StoreState) (id : String) :
    ((∃ r ∈ s.students, r.id = id) → IdsNodup s.students →
      ∃ l', deleteStudentOp s id = (.ok true, ⟨l', l'⟩) ∧
        l'.length + 1 = s.students.length ∧
        l'.Sublist s.students ∧
        (∀ r ∈ s.students, r.id ≠ id → r ∈ l') ∧
        getStudent l' id = none) ∧
    ((∀ r ∈ s.students, r.id ≠ id) →
      deleteStudentOp s id = (.error "Student not found", s)) := by
  constructor
  · intro hex hnodup
    obtain ⟨r, hr, hid⟩ := hex
    rcases hfi : s.students.findIdx? (fun x => x.id == id) with _ | i
    · rw [List.findIdx?_eq_none_iff] at hfi
      have := hfi r hr
      simp [hid] at this
    · obtain ⟨hi, hpi, -⟩ := List.findIdx?_eq_some_iff_getElem.mp hfi
      have hpid : (s.students[i]).id = id := by simpa using hpi
      have hmap : ∀ j (hj : j < s.students.length), j ≠ i → (s.students[j]).id ≠ id := by
        intro j hj hji heq
        have hlen : j < (s.students.map fun x => x.id).length := by simpa using hj
        have hlen2 : i < (s.students.map fun x => x.id).length := by simpa using hi
        have h1 : (s.students.map fun x => x.id)[j] = (s.students.map fun x => x.id)[i] := by
          simp only [List.getElem_map]
          rw [heq, hpid]
        exact hji ((List.Nodup.getElem_inj_iff hnodup).mp h1)
      refine ⟨s.students.eraseIdx i, ?_, ?_, List.eraseIdx_sublist _ _, ?_, ?_⟩
      · simp only [deleteStudentOp, hfi]
      · rw [List.length_eraseIdx, if_pos hi]
        omega
      · intro x hx hxid
        obtain ⟨j, hj, hxj⟩ := List.mem_iff_getElem.mp hx
        refine List.mem_eraseIdx_iff_getElem.mpr ⟨j, hj, ?_, hxj⟩
        intro hji
        subst hji
        rw [hxj] at hpid
        exact hxid hpid
      · rw [getStudent, List.find?_eq_none]
        intro x hx
        obtain ⟨j, hj', hji, hxj⟩ := List.mem_eraseIdx_iff_getElem.mp hx
        have := hmap j hj' hji
        rw [hxj] at this
        simp [this]
  · intro habs
    have hfi : s.students.findIdx? (fun x => x.id == id) = none :=
      List.findIdx?_eq_none_iff.mpr fun x hx => by simpa using habs x hx
    simp only [deleteStudentOp, hfi]

/-- Witness for C6: deleting an existing and then an unknown id on a
two-record collection. -/
theorem deleteStudent_spec_witness :
    (∃ l', deleteStudentOp ⟨[alice, bob], [alice, bob]⟩ "1001" = (.ok true, ⟨l', l'⟩) ∧
      l'.length + 1 = ([alice, bob] : List Student).length ∧
      l'.Sublist [alice, bob] ∧
      (∀ r ∈ ([alice, bob] : List Student), r.id ≠ "1001" → r ∈ l') ∧
      getStudent l' "1001" = none) ∧
    deleteStudentOp ⟨[alice, bob], [alice, bob]⟩ "9999" =
      (.error "Student not found", ⟨[alice, bob], [alice, bob]⟩) :=
  ⟨(deleteStudent_spec ⟨[alice, bob], [alice, bob]⟩ "1001").1
      ⟨alice, by decide, by decide⟩ (by decide),
   (deleteStudent_spec ⟨[alice, bob], [alice, bob]⟩ "9999").2 (by decide)⟩

/-- C9.  Marking attendance keeps at most one record per (student,
date) pair: a mark replaces any existing record for that student and
date — after the call the records for the pair are exactly the new
record — and every sequence of marks starting from the empty
attendance collection satisfies the at-most-one invariant. -/
theorem markAttendance_unique :
    (∀ (s : AttState) (c : MarkCall), AttUnique s.attendance →
      AttUnique (markAttendance s c).2.attendance ∧
      ((markAttendance s c).2.attendance.filter fun a =>
          a.studentId == c.studentId && a.date == c.date) = [(markAttendance s c).1]) ∧
    (∀ calls : List MarkCall, AttUnique (runMarks emptyAtt calls).attendance) := by
  have hstep : ∀ (s : AttState) (c : MarkCall), AttUnique s.attendance →
      AttUnique (markAttendance s c).2.attendance ∧
      ((markAttendance s c).2.attendance.filter fun a =>
          a.studentId == c.studentId && a.date == c.date) = [(markAttendance s c).1] := by
    intro s c hs
    constructor
    · unfold markAttendance AttUnique
      simp only
      rw [List.pairwise_append]
      refine ⟨hs.sublist (List.filter_sublist _), List.pairwise_singleton _ _, ?_⟩
      intro a ha b hb
      obtain ⟨-, hcond⟩ := List.mem_filter.mp ha
      have hb' : b = ⟨c.newId, c.studentId, c.date, c.status, c.markedBy, c.markedAt⟩ := by
        simpa using hb
      subst hb'
      rintro ⟨h1, h2⟩
      simp [h1, h2] at hcond
    · unfold markAttendance
      simp only
      rw [List.filter_append]
      have h1 : (s.attendance.filter fun a =>
          !(a.studentId == c.studentId && a.date == c.date)).filter
            (fun a => a.studentId == c.studentId && a.date == c.date) = [] := by
        rw [List.filter_filter]
        apply List.filter_eq_nil_iff.mpr
        intro a ha
        simp
      rw [h1]
      simp
  refine ⟨hstep, ?_⟩
  have hrun : ∀ (calls : List MarkCall) (s : AttState), AttUnique s.attendance →
      AttUnique (runMarks s calls).attendance := by
    intro calls
    induction calls with
    | nil => intro s hs; exact hs
    | cons c cs ih =>
      intro s hs
      have := ih (markAttendance s c).2 (hstep s c hs).1
      simpa [runMarks] using this
  intro calls
  exact hrun calls emptyAtt List.Pairwise.nil

/-- Witness for C9: one mark on the empty collection keeps the
invariant, and a second mark for the same student and date replaces
the first record. -/
theorem markAttendance_unique_witness :
    AttUnique (markAttendance emptyAtt markCall1).2.attendance ∧
    ((markAttendance (markAttendance emptyAtt markCall1).2 markCall2).2.attendance.filter
        fun a => a.studentId == markCall2.studentId && a.date == markCall2.date) =
      [(markAttendance (markAttendance emptyAtt markCall1).2 markCall2).1] :=
  ⟨(markAttendance_unique.1 emptyAtt markCall1 List.Pairwise.nil).1,
   (markAttendance_unique.1 (markAttendance emptyAtt markCall1).2 markCall2
      (markAttendance_unique.1 emptyAtt markCall1 List.Pairwise.nil).1).2⟩

/-- C10.  `deleteUser` never removes the default admin account or the
logged-in user: deleting id "1" fails and changes nothing, deleting
the current user's id fails and changes nothing, deleting an unknown
id fails and changes nothing, and a user with id "1" survives every
sequence of `deleteUser` calls. -/
theorem deleteUser_protections (s : AuthState) (userId : String) :
    deleteUser s "1" = (.error "Cannot delete default admin account", s) ∧
    (∀ u, s.currentUser = some u →
      (∃ e, (deleteUser s u.id).1 = .error e) ∧ (deleteUser s u.id).2 = s) ∧
    ((∀ r ∈ s.users, r.id ≠ userId) →
      (∃ e, (deleteUser s userId).1 = .error e) ∧ (deleteUser s userId).2 = s) ∧
    (∀ ids : List String, (∃ u ∈ s.users, u.id = "1") →
      ∃ u ∈ (runDeleteUsers s ids).users, u.id = "1") := by
  have hstep : ∀ (st : AuthState) (uid : String),
      (∃ u ∈ st.users, u.id = "1") → ∃ u ∈ (deleteUser st uid).2.users, u.id = "1" := by
    intro st uid hex
    obtain ⟨u, hu, hu1⟩ := hex
    unfold deleteUser
    split_ifs with hA hB
    · exact ⟨u, hu, hu1⟩
    · exact ⟨u, hu, hu1⟩
    · rcases hfi : st.users.findIdx? (fun x => x.id == uid) with _ | i
      · simp only [hfi]
        exact ⟨u, hu, hu1⟩
      · simp only [hfi]
        obtain ⟨hi, hpi, -⟩ := List.findIdx?_eq_some_iff_getElem.mp hfi
        obtain ⟨j, hj, hju⟩ := List.mem_iff_getElem.mp hu
        have hji : j ≠ i := by
          intro he
          subst he
          have h3 : (st.users[j]).id = uid := by simpa using hpi
          exact hA (by rw [← h3, hju, hu1])
        exact ⟨u, List.mem_eraseIdx_iff_getElem.mpr ⟨j, hj, hji, hju⟩, hu1⟩
  refine ⟨?_, ?_, ?_, ?_⟩
  · unfold deleteUser
    rw [if_pos rfl]
  · intro u hcu
    by_cases h1 : u.id = "1"
    · rw [h1]
      unfold deleteUser
      rw [if_pos rfl]
      exact ⟨⟨"Cannot delete default admin account", rfl⟩, rfl⟩
    · unfold deleteUser
      rw [if_neg h1, if_pos (by simp [hcu])]
      exact ⟨⟨"Cannot delete your own account", rfl⟩, rfl⟩
  · intro habs
    by_cases h1 : userId = "1"
    · subst h1
      unfold deleteUser
      rw [if_pos rfl]
      exact ⟨⟨"Cannot delete default admin account", rfl⟩, rfl⟩
    · by_cases h2 : (match s.currentUser with
        | some u => userId == u.id
        | none => false) = true
      · unfold deleteUser
        rw [if_neg h1, if_pos h2]
        exact ⟨⟨"Cannot delete your own account", rfl⟩, rfl⟩
      · have hfi : s.users.findIdx? (fun x => x.id == userId) = none :=
          List.findIdx?_eq_none_iff.mpr fun x hx => by simpa using habs x hx
        unfold deleteUser
        rw [if_neg h1, if_neg h2]
        simp only [hfi]
        exact ⟨⟨"User not found", rfl⟩, trivial⟩
  · have hrun : ∀ (ids : List String) (st : AuthState),
        (∃ u ∈ st.users, u.id = "1") →
        ∃ u ∈ (runDeleteUsers st ids).users, u.id = "1" := by
      intro ids
      induction ids with
      | nil => intro st h; exact h
      | cons a as ih =>
        intro st h
        have := ih (deleteUser st a).2 (hstep st a h)
        simpa [runDeleteUsers] using this
    intro ids hex
    exact hrun ids s hex

/-- Witness for C10 on the default user table: all four protections
at concrete inputs. -/
theorem deleteUser_protections_witness :
    deleteUser defaultAuth "1" = (.error "Cannot delete default admin account", defaultAuth) ∧
    ((∃ e, (deleteUser defaultAuth teacherU.id).1 = .error e) ∧
      (deleteUser defaultAuth teacherU.id).2 = defaultAuth) ∧
    ((∃ e, (deleteUser defaultAuth "99").1 = .error e) ∧
      (deleteUser defaultAuth "99").2 = defaultAuth) ∧
    (∃ u ∈ (runDeleteUsers defaultAuth ["2", "1", "7"]).users, u.id = "1") :=
  ⟨(deleteUser_protections defaultAuth "99").1,
   (deleteUser_protections defaultAuth "99").2.1 teacherU rfl,
   (deleteUser_protections defaultAuth "99").2.2.1 (by decide),
   (deleteUser_protections defaultAuth "99").2.2.2 ["2", "1", "7"] ⟨adminU, by decide, rfl⟩⟩

/-- A successful add (with an id not already present) keeps both the
case-insensitive key uniqueness and the distinctness of ids; a
rejected add changes nothing. -/
theorem submitAdd_preserves (s : StoreState) (f : AddForm) (today : CivilDate)
    (tod : Int) (newId : String)
    (hinv : StudentsUnique s.students) (hids : IdsNodup s.students)
    (hfresh : ∀ r ∈ s.students, r.id ≠ newId) :
    StudentsUnique (submitAddStudent s f today tod newId).2.students ∧
    IdsNodup (submitAddStudent s f today tod newId).2.students := by
  by_cases he : formErrors s.students none f today tod = []
  · have h2 : (submitAddStudent s f today tod newId).2 =
        ⟨s.students ++ [formStudent f newId], s.students ++ [formStudent f newId]⟩ := by
      simp [submitAddStudent, he]
    rw [h2]
    obtain ⟨hu1, hu2⟩ := formErrors_nil_unique _ _ _ _ _ he
    constructor
    · unfold StudentsUnique
      rw [List.pairwise_append]
      refine ⟨hinv, List.pairwise_singleton _ _, ?_⟩
      intro a ha b hb
      have hb2 : b = formStudent f newId := by simpa using hb
      subst hb2
      constructor
      · have := (isRollNoUnique_none_iff _ _).mp hu1 a ha
        simpa [formStudent] using this
      · have := (isAdmissionNoUnique_none_iff _ _).mp hu2 a ha
        simpa [formStudent] using this
    · unfold IdsNodup
      rw [List.map_append, List.nodup_append]
      refine ⟨hids, by simp, ?_⟩
      intro x hx hx2
      simp [formStudent] at hx2
      obtain ⟨r, hr, hrx⟩ := List.mem_map.mp hx
      exact hfresh r hr (by rw [hrx, hx2])
  · have h2 : (submitAddStudent s f today tod newId).2 = s := by
      simp [submitAddStudent, List.isEmpty_iff, he]
    rw [h2]
    exact ⟨hinv, hids⟩

/-- A successful edit keeps both invariants: the self-excluding
uniqueness checks guarantee the merged record collides with no other
record, and the replaced record keeps its id. -/
theorem submitEdit_preserves (s : StoreState) (editingId : Option String) (f : AddForm)
    (today : CivilDate) (tod : Int)
    (hinv : StudentsUnique s.students) (hids : IdsNodup s.students) :
    StudentsUnique (submitEditStudent s editingId f today tod).2.students ∧
    IdsNodup (submitEditStudent s editingId f today tod).2.students := by
  by_cases he : formErrors s.students editingId f today tod = []
  · have hsub : (submitEditStudent s editingId f today tod).2 =
        (updateStudentOp s editingId f).2 := by
      simp [submitEditStudent, he]
    rw [hsub]
    rcases editingId with _ | id
    · simp only [updateStudentOp]
      exact ⟨hinv, hids⟩
    · obtain ⟨hu1, hu2⟩ := formErrors_nil_unique _ _ _ _ _ he
      rcases hfi : s.students.findIdx? (fun r => r.id == id) with _ | i
      · simp only [updateStudentOp, hfi]
        exact ⟨hinv, hids⟩
      · obtain ⟨hi, hpi, -⟩ := List.findIdx?_eq_some_iff_getElem.mp hfi
        have hpid : (s.students[i]).id = id := by simpa using hpi
        have h2 : (updateStudentOp s (some id) f).2 =
            ⟨s.students.set i (formStudent f id), s.students.set i (formStudent f id)⟩ := by
          simp only [updateStudentOp, hfi]
        rw [h2]
        obtain ⟨l1, l2, hdec, -, hset⟩ := @List.exists_of_set Student i (formStudent f id) s.students hi
        have hu1m := (isRollNoUnique_some_iff _ _ _).mp hu1
        have hu2m := (isAdmissionNoUnique_some_iff _ _ _).mp hu2
        have hid_ne : ∀ x, (x ∈ l1 ∨ x ∈ l2) → x.id ≠ id := by
          intro x hx heq
          have hmap : ((l1 ++ s.students[i] :: l2).map fun r => r.id).Nodup := by
            rw [← hdec]; exact hids
          rw [List.map_append, List.map_cons, List.nodup_append] at hmap
          obtain ⟨-, hmap2, hdisj⟩ := hmap
          rw [List.nodup_cons] at hmap2
          rcases hx with hx | hx
          · exact hdisj (List.mem_map_of_mem _ hx)
              (List.mem_cons.mpr (Or.inl (heq.trans hpid.symm)))
          · exact hmap2.1 (by
              have : x.id ∈ l2.map fun r => r.id := List.mem_map_of_mem _ hx
              rwa [heq, ← hpid] at this)
        have hmem : ∀ x, (x ∈ l1 ∨ x ∈ l2) → x ∈ s.students := by
          intro x hx
          rw [hdec]
          rcases hx with hx | hx
          · exact List.mem_append_left _ hx
          · exact List.mem_append_right _ (List.mem_cons_of_mem _ hx)
        have hrel : ∀ x, (x ∈ l1 ∨ x ∈ l2) →
            jsToLower x.rollNo ≠ jsToLower (jsTrim f.rollNo) ∧
            jsToLower x.admissionNo ≠ jsToLower (jsTrim f.admissionNo) := by
          intro x hx
          constructor
          · intro hcol; exact hid_ne x hx (hu1m x (hmem x hx) hcol)
          · intro hcol; exact hid_ne x hx (hu2m x (hmem x hx) hcol)
        constructor
        · unfold StudentsUnique at hinv ⊢
          rw [hset]
          rw [hdec, List.pairwise_append, List.pairwise_cons] at hinv
          obtain ⟨hp1, ⟨-, hp2⟩, hcross⟩ := hinv
          rw [List.pairwise_append, List.pairwise_cons]
          refine ⟨hp1, ⟨?_, hp2⟩, ?_⟩
          · intro b hb
            have := hrel b (Or.inr hb)
            exact ⟨fun hc => this.1 (by simpa [formStudent] using hc.symm),
                   fun hc => this.2 (by simpa [formStudent] using hc.symm)⟩
          · intro a ha b hb
            rcases List.mem_cons.mp hb with hb | hb
            · subst hb
              have := hrel a (Or.inl ha)
              exact ⟨fun hc => this.1 (by simpa [formStudent] using hc),
                     fun hc => this.2 (by simpa [formStudent] using hc)⟩
            · exact hcross a ha b (List.mem_cons_of_mem _ hb)
        · have hmapeq : ((s.students.set i (formStudent f id)).map fun r => r.id) =
              s.students.map fun r => r.id := by
            rw [hset]
            conv_rhs => rw [hdec]
            simp [formStudent, hpid]
          unfold IdsNodup
          rw [hmapeq]
          exact hids
  · have h2 : (submitEditStudent s editingId f today tod).2 = s := by
      simp [submitEditStudent, List.isEmpty_iff, he]
    rw [h2]
    exact ⟨hinv, hids⟩

/-- Deleting (a sublist operation) keeps both invariants. -/
theorem deleteOp_preserves (s : StoreState) (id : String)
    (hinv : StudentsUnique s.students) (hids : IdsNodup s.students) :
    StudentsUnique (deleteStudentOp s id).2.students ∧
    IdsNodup (deleteStudentOp s id).2.students := by
  unfold StudentsUnique at hinv ⊢
  unfold IdsNodup at hids ⊢
  rcases hfi : s.students.findIdx? (fun r => r.id == id) with _ | i
  · simp only [deleteStudentOp, hfi]
    exact ⟨hinv, hids⟩
  · simp only [deleteStudentOp, hfi]
    exact ⟨List.Pairwise.sublist (List.eraseIdx_sublist _ _) hinv,
           List.Nodup.sublist (List.Sublist.map _ (List.eraseIdx_sublist _ _)) hids⟩

/-- Counterexample to C2 as stated: import is one of the store's
operations, performs no per-record validation, and from the empty
collection reaches a state holding two distinct records whose roll
numbers agree case-insensitively. -/
theorem reachable_unique_counterexample :
    (runOps emptyStore [Op.imp ⟨some (.sequence [dupRoll1, dupRoll2])⟩]).students =
      [dupRoll1, dupRoll2] ∧
    dupRoll1 ≠ dupRoll2 ∧
    jsToLower dupRoll1.rollNo = jsToLower dupRoll2.rollNo ∧
    ¬ StudentsUnique
        (runOps emptyStore [Op.imp ⟨some (.sequence [dupRoll1, dupRoll2])⟩]).students :=
  ⟨rfl, by decide, by decide, by decide⟩

/-- C2 (amended).  In every state reachable from the empty store by
the add, update and delete pipelines — add taking a fresh id, as
`Date.now()` is intended to supply — at most one record holds any
given roll number under case-insensitive comparison, likewise for
admission numbers, and ids stay pairwise distinct.  Import is
excluded: it replaces the collection with the payload without
per-record validation and can break the invariant, as the
counterexample shows. -/
theorem reachable_unique (s : StoreState) (h : ReachableCrud s) :
    StudentsUnique s.students ∧ IdsNodup s.students := by
  induction h with
  | empty => exact ⟨List.Pairwise.nil, by simp [IdsNodup, emptyStore]⟩
  | add hs hfresh ih => exact submitAdd_preserves _ _ _ _ _ ih.1 ih.2 hfresh
  | update hs ih => exact submitEdit_preserves _ _ _ _ _ ih.1 ih.2
  | del hs ih => exact deleteOp_preserves _ _ ih.1 ih.2

/-- Witness for the amended C2 at a state reached by one add. -/
theorem reachable_unique_witness :
    StudentsUnique (submitAddStudent emptyStore validForm wToday 0 "100").2.students ∧
    IdsNodup (submitAddStudent emptyStore validForm wToday 0 "100").2.students :=
  reachable_unique _ (ReachableCrud.add ReachableCrud.empty (by decide))

end SMS
